import Mathlib

/-!
Verification of a WebSocket chat relay and an SSE push demo.

The chat server (sockets/server.js) keeps a JS `Set` of connected sockets
and, on each received message, broadcasts it to every other client whose
`readyState` is `OPEN`.  We embed the registry as a duplicate-free list of
connection identities in insertion order (the semantics of a JS `Set`), the
broadcast loop as a filter over that list, and the connect/close handlers
as operations on the registry.
-/

/-- A connection identity (JS object identity of a socket). -/
abbrev ConnId := Nat

/-- The four WebSocket `readyState` values (CONNECTING, OPEN, CLOSING, CLOSED). -/
inductive ReadyState where
  | connecting
  | opened
  | closing
  | closed
deriving DecidableEq, Repr

/-- JS `Set.prototype.add`: membership-preserving insert; a `Set` keeps
insertion order and never stores a value twice (server.js line 10,
`clients.add(socket)`). -/
def setAdd (s : List ConnId) (c : ConnId) : List ConnId :=
  if c ∈ s then s else s ++ [c]

/-- JS `Set.prototype.delete`: removes the value if present, no-op otherwise
(server.js line 26, `clients.delete(socket)`). -/
def setDelete (s : List ConnId) (c : ConnId) : List ConnId :=
  s.filter (fun x => decide (x ≠ c))

/-- The broadcast loop of the `message` handler (server.js lines 18-22):
`for (const client of clients) if (client !== socket && client.readyState ===
client.OPEN) client.send(msg)`.  Returns the list of clients the loop calls
`send` on, in iteration order. -/
def broadcastRecipients (clients : List ConnId) (sender : ConnId)
    (state : ConnId → ReadyState) : List ConnId :=
  clients.filter (fun c => decide (c ≠ sender) && decide (state c = ReadyState.opened))

/-- The deliveries performed by one run of the `message` handler: each
eligible client receives the payload `msg = data.toString()` unchanged
(server.js lines 13-23). -/
def onMessage (clients : List ConnId) (sender : ConnId)
    (state : ConnId → ReadyState) (payload : String) : List (ConnId × String) :=
  (broadcastRecipients clients sender state).map (fun c => (c, payload))

/-- The two registry-relevant socket lifecycle events the server reacts to:
`wss.on('connection', ...)` fires `connect` (server.js line 9) and
`socket.on('close', ...)` fires `close` (server.js line 25). -/
inductive RegEvent where
  | connect (c : ConnId)
  | close (c : ConnId)
deriving DecidableEq, Repr

/-- Effect of one lifecycle event on the registry: `connect` runs
`clients.add(socket)` (line 10), `close` runs `clients.delete(socket)`
(line 26). -/
def applyEvent (s : List ConnId) : RegEvent → List ConnId
  | RegEvent.connect c => setAdd s c
  | RegEvent.close c => setDelete s c

/-- Registry contents after a sequence of lifecycle events, starting from the
empty `Set` of server.js line 7. -/
def runEvents (evs : List RegEvent) : List ConnId :=
  evs.foldl applyEvent []

/-- The spec-side membership condition: a connect event for `c` has fired and
no close event for `c` has fired after it. -/
def connectedNotClosed (evs : List RegEvent) (c : ConnId) : Prop :=
  ∃ l r, evs = l ++ RegEvent.connect c :: r ∧ RegEvent.close c ∉ r

/-- Observable trace of one run of the `message` handler (server.js lines
13-23).  `logs` records the `console.log` calls the handler makes: the only
one is `console.log('Received:', msg)` on line 15 — the broadcast loop has no
`try`/`catch` and passes no error callback to `client.send`, so a failed send
produces no log entry.  `attempts` is the list of `client.send(msg)` calls
made; `deliveries` the subset that actually reach their recipient.  `ws`'s
`send` on an OPEN socket never throws into the caller (failures surface
asynchronously), so which sends fail — the environment parameter
`sendFails` — changes neither the control flow nor the logs. -/
structure HandlerTrace where
  logs : List String
  attempts : List (ConnId × String)
  deliveries : List (ConnId × String)
deriving DecidableEq, Repr

/-- One run of the `message` handler under a send-failure environment
`sendFails` (server.js lines 13-23). -/
def messageHandler (clients : List ConnId) (sender : ConnId)
    (state : ConnId → ReadyState) (sendFails : ConnId → Bool)
    (payload : String) : HandlerTrace :=
  { logs := ["Received: " ++ payload]
    attempts := (broadcastRecipients clients sender state).map (fun c => (c, payload))
    deliveries := (broadcastRecipients clients sender state).filterMap
      (fun c => if sendFails c then none else some (c, payload)) }

/-- The payloads a fixed recipient `r` receives from one broadcast
(projection of `onMessage` onto `r`). -/
def deliveredTo (clients : List ConnId) (state : ConnId → ReadyState)
    (r sender : ConnId) (payload : String) : List String :=
  (onMessage clients sender state payload).filterMap
    (fun d => if d.1 = r then some d.2 else none)

/-- Recipient `r`'s inbox after the server processes a sequence of messages
`(sender, payload)` in arrival order, each through the broadcast loop. -/
def inbox (clients : List ConnId) (state : ConnId → ReadyState)
    (msgs : List (ConnId × String)) (r : ConnId) : List String :=
  msgs.foldl (fun acc m => acc ++ deliveredTo clients state r m.1 m.2) []

/-- The characters stripped by JS `String.prototype.trim`: the ECMA-262
WhiteSpace production (TAB, VT, FF, SP, NBSP, ZWNBSP and every
Space_Separator code point: U+1680, U+2000-U+200A, U+202F, U+205F, U+3000)
plus the LineTerminator production (LF, CR, LS U+2028, PS U+2029). -/
def jsWs (ch : Char) : Bool :=
  ch = '\t' || ch = '\n' || ch = Char.ofNat 11 || ch = Char.ofNat 12 ||
    ch = '\r' || ch = ' ' || ch = Char.ofNat 0xA0 || ch = Char.ofNat 0x1680 ||
    (Char.ofNat 0x2000 ≤ ch && ch ≤ Char.ofNat 0x200A) ||
    ch = Char.ofNat 0x2028 || ch = Char.ofNat 0x2029 ||
    ch = Char.ofNat 0x202F || ch = Char.ofNat 0x205F ||
    ch = Char.ofNat 0x3000 || ch = Char.ofNat 0xFEFF

/-- JS `String.prototype.trim` on the underlying character list. -/
def trimChars (l : List Char) : List Char :=
  ((l.dropWhile jsWs).reverse.dropWhile jsWs).reverse

/-- JS `String.prototype.trim`. -/
def jsTrim (s : String) : String :=
  ⟨trimChars s.toList⟩

/-- The line callback installed by user2.js (lines 8-11): `if
(line.trim().length === 0) return; ws.send('user2: ' + line)`.  Returns the
frame handed to `ws.send`, or `none` when the line is discarded. -/
def user2OnLine (line : String) : Option String :=
  if (jsTrim line).length = 0 then none
  else some ("user2: " ++ line)

/-- JSON values; numeric literals are kept as their lexeme. -/
inductive Json where
  | null
  | boolean (b : Bool)
  | str (s : String)
  | num (lexeme : String)
  | arr (elements : List Json)
  | obj (fields : List (String × Json))

/-- Field access on a parsed JSON object (first binding, as in JS). -/
def jsonLookup (j : Json) (key : String) : Option Json :=
  match j with
  | Json.obj fields => fields.lookup key
  | _ => none

/-- JSON string escaping as performed by `JSON.stringify` (common cases). -/
def escapeChar (ch : Char) : List Char :=
  if ch = '"' then ['\\', '"']
  else if ch = '\\' then ['\\', '\\']
  else if ch = '\n' then ['\\', 'n']
  else if ch = '\r' then ['\\', 'r']
  else if ch = '\t' then ['\\', 't']
  else [ch]

def escapeString (s : String) : String :=
  ⟨s.toList.flatMap escapeChar⟩

mutual

/-- `JSON.stringify` with no spacing, keys in insertion order. -/
def jsonStringify : Json → String
  | Json.null => "null"
  | Json.boolean true => "true"
  | Json.boolean false => "false"
  | Json.str s => "\"" ++ escapeString s ++ "\""
  | Json.num lx => lx
  | Json.arr es => "[" ++ stringifyElems es ++ "]"
  | Json.obj fs => "\x7b" ++ stringifyFields fs ++ "\x7d"

def stringifyElems : List Json → String
  | [] => ""
  | [j] => jsonStringify j
  | j :: rest => jsonStringify j ++ "," ++ stringifyElems rest

def stringifyFields : List (String × Json) → String
  | [] => ""
  | [(k, v)] => "\"" ++ escapeString k ++ "\":" ++ jsonStringify v
  | (k, v) :: rest =>
      "\"" ++ escapeString k ++ "\":" ++ jsonStringify v ++ "," ++
        stringifyFields rest

end

/-- The decimal digit character for `n % 10`. -/
def dc (n : Nat) : Char := Char.ofNat (48 + n % 10)

/-- UTC calendar components of a JS `Date` (what `new Date()` captures). -/
structure JsDate where
  year : Nat
  month : Nat
  day : Nat
  hour : Nat
  minute : Nat
  second : Nat
  ms : Nat
deriving DecidableEq, Repr

/-- JS `Date.prototype.toISOString`: the 24-character UTC form
`YYYY-MM-DDTHH:mm:ss.sssZ`, every field zero-padded (years 0-9999). -/
def toISOString (d : JsDate) : String :=
  ⟨[dc (d.year / 1000), dc (d.year / 100), dc (d.year / 10), dc d.year, '-',
    dc (d.month / 10), dc d.month, '-', dc (d.day / 10), dc d.day, 'T',
    dc (d.hour / 10), dc d.hour, ':', dc (d.minute / 10), dc d.minute, ':',
    dc (d.second / 10), dc d.second, '.',
    dc (d.ms / 100), dc (d.ms / 10), dc d.ms, 'Z']⟩

/-- Character of `s` at index `i` (defaulting to `'?'` out of range). -/
def chAt (s : String) (i : Nat) : Char := s.toList.getD i '?'

/-- Recogniser for the ISO-8601 combined date-time shape emitted by
`toISOString`: 24 characters, separators in the right slots, digits
everywhere else. -/
def isIso8601 (s : String) : Bool :=
  s.toList.length == 24 &&
  chAt s 4 == '-' && chAt s 7 == '-' && chAt s 10 == 'T' &&
  chAt s 13 == ':' && chAt s 16 == ':' && chAt s 19 == '.' &&
  chAt s 23 == 'Z' &&
  ([0, 1, 2, 3, 5, 6, 8, 9, 11, 12, 14, 15, 17, 18, 20, 21, 22].all
    (fun i => (chAt s i).isDigit))

/-- The JSON object the SSE server serialises on each interval tick
(SSE/server/server.js line 14): `{ msg: "Hello from fetch SSE", time: new
Date().toISOString() }`. -/
def sseTickJson (now : JsDate) : Json :=
  Json.obj [("msg", Json.str "Hello from fetch SSE"),
            ("time", Json.str (toISOString now))]

/-- The chunk `res.write` emits on each tick (server.js line 14):
`data: ` + `JSON.stringify(...)` + `\n\n`. -/
def sseTickChunk (now : JsDate) : String :=
  "data: " ++ jsonStringify (sseTickJson now) ++ "\n\n"

/-- The period passed to `setInterval` (server.js line 15). -/
def sseIntervalMs : Nat := 5000

/-- The externally visible events of the SSE server: an HTTP request hitting
`/events`, or a connected client going away. -/
inductive SSEEvent where
  | request
  | disconnect
deriving DecidableEq, Repr

/-- SSE server state: the periods of the currently running `setInterval`
timers.  The `/events` handler (server.js lines 7-16) starts one
`setInterval(..., 5000)` per request; the source contains no
`clearInterval` call and registers no close listener on `req` or `res`, so
no event ever removes a timer. -/
structure SSEServerState where
  intervals : List Nat
deriving DecidableEq, Repr

/-- Effect of one event on the SSE server. -/
def sseStep (s : SSEServerState) : SSEEvent → SSEServerState
  | SSEEvent.request => ⟨s.intervals ++ [sseIntervalMs]⟩
  | SSEEvent.disconnect => s

/-- SSE server state after a sequence of events, starting with no timers. -/
def sseRun (evs : List SSEEvent) : SSEServerState :=
  evs.foldl sseStep ⟨[]⟩

/-- JSON insignificant whitespace (RFC 8259). -/
def jsonWs (ch : Char) : Bool :=
  ch = ' ' || ch = '\t' || ch = '\n' || ch = '\r'

def skipWs (cs : List Char) : List Char := cs.dropWhile jsonWs

def isHexDigit (ch : Char) : Bool :=
  ch.isDigit || ('a' ≤ ch && ch ≤ 'f') || ('A' ≤ ch && ch ≤ 'F')

def hexVal (ch : Char) : Nat :=
  if ch.isDigit then ch.toNat - 48
  else if 'a' ≤ ch && ch ≤ 'f' then ch.toNat - 87
  else ch.toNat - 55

/-- The character denoted by a single-character JSON escape, if valid. -/
def escMap (esc : Char) : Option Char :=
  if esc = '"' then some '"'
  else if esc = '\\' then some '\\'
  else if esc = '/' then some '/'
  else if esc = 'b' then some (Char.ofNat 8)
  else if esc = 'f' then some (Char.ofNat 12)
  else if esc = 'n' then some '\n'
  else if esc = 'r' then some '\r'
  else if esc = 't' then some '\t'
  else none

/-- Body of a JSON string literal, after the opening quote: the decoded
characters plus the remainder after the closing quote; `none` when the
literal is unterminated or contains an invalid escape or control
character. -/
def parseStringBody : List Char → Option (List Char × List Char)
  | [] => none
  | '"' :: rest => some ([], rest)
  | '\\' :: esc :: rest =>
      if esc = 'u' then
        match rest with
        | h1 :: h2 :: h3 :: h4 :: rest' =>
            if isHexDigit h1 && isHexDigit h2 && isHexDigit h3 && isHexDigit h4 then
              match parseStringBody rest' with
              | some (tail, rem) =>
                  some (Char.ofNat
                    (((hexVal h1 * 16 + hexVal h2) * 16 + hexVal h3) * 16 +
                      hexVal h4) :: tail, rem)
              | none => none
            else none
        | _ => none
      else
        match escMap esc with
        | some ch =>
            match parseStringBody rest with
            | some (tail, rem) => some (ch :: tail, rem)
            | none => none
        | none => none
  | ch :: rest =>
      if ch.toNat < 32 then none
      else
        match parseStringBody rest with
        | some (tail, rem) => some (ch :: tail, rem)
        | none => none

/-- Optional fraction part of a JSON number. -/
def parseFrac : List Char → Option (List Char × List Char)
  | '.' :: t =>
      if (t.takeWhile Char.isDigit).isEmpty then none
      else some ('.' :: t.takeWhile Char.isDigit, t.dropWhile Char.isDigit)
  | cs => some ([], cs)

/-- Optional exponent part of a JSON number. -/
def parseExp : List Char → Option (List Char × List Char)
  | [] => some ([], [])
  | c :: t =>
      if c = 'e' || c = 'E' then
        let sg : List Char × List Char :=
          match t with
          | '+' :: t' => (['+'], t')
          | '-' :: t' => (['-'], t')
          | _ => ([], t)
        if (sg.2.takeWhile Char.isDigit).isEmpty then none
        else some (c :: (sg.1 ++ sg.2.takeWhile Char.isDigit),
          sg.2.dropWhile Char.isDigit)
      else some ([], c :: t)

def finishNumber (sign ip : List Char) (cs : List Char) :
    Option (List Char × List Char) :=
  match parseFrac cs with
  | none => none
  | some (fp, cs2) =>
      match parseExp cs2 with
      | none => none
      | some (ep, cs3) => some (sign ++ ip ++ fp ++ ep, cs3)

/-- A JSON numeric literal: lexeme and remainder (`none` on a malformed
number, e.g. a leading zero or a bare minus). -/
def parseNumber (cs : List Char) : Option (List Char × List Char) :=
  let sgn : List Char × List Char :=
    match cs with
    | '-' :: t => (['-'], t)
    | _ => ([], cs)
  match sgn.2 with
  | '0' :: t =>
      match t with
      | d :: _ => if d.isDigit then none else finishNumber sgn.1 ['0'] t
      | [] => finishNumber sgn.1 ['0'] []
  | cs1 =>
      if (cs1.takeWhile Char.isDigit).isEmpty then none
      else finishNumber sgn.1 (cs1.takeWhile Char.isDigit)
        (cs1.dropWhile Char.isDigit)

mutual

/-- Recursive-descent JSON value parser (the behaviour of `JSON.parse` on
the text after the parsed value is the caller's concern); `fuel` only bounds
recursion depth and is chosen large enough by `jsonParse`. -/
def parseValue : Nat → List Char → Option (Json × List Char)
  | 0, _ => none
  | Nat.succ fuel, cs =>
      match skipWs cs with
      | 'n' :: 'u' :: 'l' :: 'l' :: rest => some (Json.null, rest)
      | 't' :: 'r' :: 'u' :: 'e' :: rest => some (Json.boolean true, rest)
      | 'f' :: 'a' :: 'l' :: 's' :: 'e' :: rest => some (Json.boolean false, rest)
      | '"' :: rest =>
          (match parseStringBody rest with
           | some (body, rem) => some (Json.str ⟨body⟩, rem)
           | none => none)
      | '[' :: rest =>
          (match skipWs rest with
           | ']' :: rest' => some (Json.arr [], rest')
           | _ =>
               match parseElems fuel rest with
               | some (es, rem) =>
                   (match skipWs rem with
                    | ']' :: rem' => some (Json.arr es, rem')
                    | _ => none)
               | none => none)
      | c :: rest =>
          if c = Char.ofNat 123 then
            match skipWs rest with
            | c' :: rest' =>
                if c' = Char.ofNat 125 then some (Json.obj [], rest')
                else
                  match parseMembers fuel rest with
                  | some (fs, rem) =>
                      (match skipWs rem with
                       | c'' :: rem' =>
                           if c'' = Char.ofNat 125 then some (Json.obj fs, rem')
                           else none
                       | [] => none)
                  | none => none
            | [] => none
          else
            match parseNumber (c :: rest) with
            | some (lx, rem) => some (Json.num ⟨lx⟩, rem)
            | none => none
      | [] => none

/-- One or more comma-separated `"key": value` members; leaves the closing
brace for the caller. -/
def parseMembers : Nat → List Char → Option (List (String × Json) × List Char)
  | 0, _ => none
  | Nat.succ fuel, cs =>
      match skipWs cs with
      | '"' :: rest =>
          (match parseStringBody rest with
           | some (kcs, rest1) =>
               (match skipWs rest1 with
                | ':' :: rest2 =>
                    (match parseValue fuel rest2 with
                     | some (v, rest3) =>
                         (match skipWs rest3 with
                          | ',' :: rest4 =>
                              (match parseMembers fuel rest4 with
                               | some (fs, rem) => some ((⟨kcs⟩, v) :: fs, rem)
                               | none => none)
                          | rem => some ([(⟨kcs⟩, v)], rem))
                     | none => none)
                | _ => none)
           | none => none)
      | _ => none

/-- One or more comma-separated array elements; leaves the closing bracket
for the caller. -/
def parseElems : Nat → List Char → Option (List Json × List Char)
  | 0, _ => none
  | Nat.succ fuel, cs =>
      match parseValue fuel cs with
      | some (v, rest) =>
          (match skipWs rest with
           | ',' :: rest' =>
               (match parseElems fuel rest' with
                | some (es, rem) => some (v :: es, rem)
                | none => none)
           | rem => some ([v], rem))
      | none => none

end

/-- `JSON.parse`: parse one value and require only whitespace after it;
`none` models a thrown `SyntaxError`. -/
def jsonParse (s : String) : Option Json :=
  match parseValue (2 * s.length + 2) s.toList with
  | some (j, rest) => if skipWs rest = [] then some j else none
  | none => none

/-- First occurrence of `pat` inside a character list: the characters before
the match and the characters after it. -/
def firstSplit (pat : List Char) : List Char → Option (List Char × List Char)
  | [] => if pat.isPrefixOf ([] : List Char) then some ([], []) else none
  | c :: rest =>
      if pat.isPrefixOf (c :: rest) then some ([], (c :: rest).drop pat.length)
      else
        match firstSplit pat rest with
        | some (before, after) => some (c :: before, after)
        | none => none

/-- JS `String.prototype.includes`. -/
def includesSub (s pat : String) : Bool :=
  (firstSplit pat.toList s.toList).isSome

/-- JS `String.prototype.replace` with a string pattern: replaces only the
first occurrence (part_001 line 21, `chunk.replace('data: ', '')`). -/
def replaceFirst (s pat repl : String) : String :=
  match firstSplit pat.toList s.toList with
  | some (before, after) => ⟨before ++ repl.toList ++ after⟩
  | none => s

/-- The chunk-processing branch of `startSSE` (part_001 lines 16-24): when
the decoded chunk includes `data:`, strip the first `data: ` occurrence,
trim, and `JSON.parse` the result.  `none` means the branch did not run;
`some none` means `JSON.parse` threw; `some (some j)` means it produced
`j`. -/
def processChunk (chunk : String) : Option (Option Json) :=
  if includesSub chunk "data:" then
    some (jsonParse (jsTrim (replaceFirst chunk "data: " "")))
  else none

theorem mem_setAdd (s : List ConnId) (c x : ConnId) :
    x ∈ setAdd s c ↔ x ∈ s ∨ x = c := by
  unfold setAdd
  split
  · rename_i hc
    constructor
    · exact fun h => Or.inl h
    · rintro (h | rfl)
      · exact h
      · exact hc
  · simp

theorem mem_setDelete (s : List ConnId) (c x : ConnId) :
    x ∈ setDelete s c ↔ x ∈ s ∧ x ≠ c := by
  simp [setDelete]

theorem setAdd_nodup {s : List ConnId} (h : s.Nodup) (c : ConnId) :
    (setAdd s c).Nodup := by
  unfold setAdd
  split
  · exact h
  · rename_i hc
    simp [List.nodup_append, h, hc]

theorem setDelete_nodup {s : List ConnId} (h : s.Nodup) (c : ConnId) :
    (setDelete s c).Nodup :=
  h.filter _

theorem mem_broadcastRecipients (clients : List ConnId) (sender : ConnId)
    (state : ConnId → ReadyState) (x : ConnId) :
    x ∈ broadcastRecipients clients sender state ↔
      x ∈ clients ∧ x ≠ sender ∧ state x = ReadyState.opened := by
  simp [broadcastRecipients, and_assoc]

theorem broadcastRecipients_nodup {clients : List ConnId} (h : clients.Nodup)
    (sender : ConnId) (state : ConnId → ReadyState) :
    (broadcastRecipients clients sender state).Nodup :=
  h.filter _

/-- Counting a pair `(b, p)` in the per-recipient delivery list reduces to
counting `b` among the recipients. -/
theorem count_map_pair (l : List ConnId) (b : ConnId) (p : String) :
    (l.map (fun c => (c, p))).count (b, p) = l.count b := by
  induction l with
  | nil => rfl
  | cons a t ih =>
      simp only [List.map_cons, List.count_cons, ih]
      by_cases hab : b = a
      · subst hab; simp
      · simp [hab, Prod.ext_iff]

/-- C1: with `B` and `C` open members of the registry and both distinct from
the open sender `A`, the broadcast delivers the payload unchanged to `B` and
to `C` exactly once each, and `A` receives zero copies of its own message. -/
theorem c1_broadcast_exactly_once (clients : List ConnId) (A B C : ConnId)
    (state : ConnId → ReadyState) (payload : String)
    (hnd : clients.Nodup) (hB : B ∈ clients) (hC : C ∈ clients)
    (hBA : B ≠ A) (hCA : C ≠ A)
    (hAopen : state A = ReadyState.opened)
    (hBopen : state B = ReadyState.opened)
    (hCopen : state C = ReadyState.opened) :
    (onMessage clients A state payload).count (B, payload) = 1 ∧
    (onMessage clients A state payload).count (C, payload) = 1 ∧
    (onMessage clients A state payload).count (A, payload) = 0 := by
  have hrec := broadcastRecipients_nodup hnd A state
  refine ⟨?_, ?_, ?_⟩
  · rw [onMessage, count_map_pair]
    exact List.count_eq_one_of_mem hrec
      ((mem_broadcastRecipients clients A state B).2 ⟨hB, hBA, hBopen⟩)
  · rw [onMessage, count_map_pair]
    exact List.count_eq_one_of_mem hrec
      ((mem_broadcastRecipients clients A state C).2 ⟨hC, hCA, hCopen⟩)
  · rw [onMessage, count_map_pair]
    refine List.count_eq_zero.2 (fun hmem => ?_)
    exact ((mem_broadcastRecipients clients A state A).1 hmem).2.1 rfl

theorem runEvents_append_one (evs : List RegEvent) (e : RegEvent) :
    runEvents (evs ++ [e]) = applyEvent (runEvents evs) e := by
  simp [runEvents, List.foldl_append]

/-- Decomposing a split of `xs ++ [e]` around a distinguished element. -/
theorem snoc_split {α : Type} {xs : List α} {e a : α} {l r : List α}
    (h : xs ++ [e] = l ++ a :: r) :
    (l = xs ∧ a = e ∧ r = []) ∨ ∃ r', xs = l ++ a :: r' ∧ r = r' ++ [e] := by
  rcases List.eq_nil_or_concat r with hr | ⟨r', e', rfl⟩
  · subst hr
    have h' : xs ++ [e] = l ++ [a] := h
    have hlen : ([e] : List α).length = ([a] : List α).length := rfl
    obtain ⟨h1, h2⟩ := List.append_inj' h' hlen
    exact Or.inl ⟨h1.symm, by injection h2 with h3 _; exact h3.symm, rfl⟩
  · right
    have h' : xs ++ [e] = (l ++ a :: r') ++ [e'] := by
      simpa using h
    have hlen : ([e] : List α).length = ([e'] : List α).length := rfl
    obtain ⟨h1, h2⟩ := List.append_inj' h' hlen
    have he : e = e' := by simpa using h2
    exact ⟨r', h1, by rw [he]; exact List.concat_eq_append r' e'⟩

theorem connectedNotClosed_append_one (evs : List RegEvent) (e : RegEvent) (c : ConnId) :
    connectedNotClosed (evs ++ [e]) c ↔
      e = RegEvent.connect c ∨
        (connectedNotClosed evs c ∧ e ≠ RegEvent.close c) := by
  constructor
  · rintro ⟨l, r, hsplit, hr⟩
    rcases snoc_split hsplit with ⟨_, hae, _⟩ | ⟨r', hxs, hrr⟩
    · exact Or.inl hae.symm
    · refine Or.inr ⟨⟨l, r', hxs, fun hmem => hr ?_⟩, fun hec => hr ?_⟩
      · rw [hrr]; exact List.mem_append_left _ hmem
      · rw [hrr, ← hec]; exact List.mem_append_right _ (List.mem_singleton.2 rfl)
  · rintro (rfl | ⟨⟨l, r, rfl, hr⟩, hne⟩)
    · exact ⟨evs, [], rfl, List.not_mem_nil _⟩
    · refine ⟨l, r ++ [e], by simp, fun hmem => ?_⟩
      rcases List.mem_append.1 hmem with hm | hm
      · exact hr hm
      · exact hne (List.mem_singleton.1 hm).symm

theorem mem_applyEvent (s : List ConnId) (e : RegEvent) (c : ConnId) :
    c ∈ applyEvent s e ↔
      e = RegEvent.connect c ∨ (c ∈ s ∧ e ≠ RegEvent.close c) := by
  cases e with
  | connect d =>
      rw [applyEvent, mem_setAdd]
      constructor
      · rintro (hm | rfl)
        · exact Or.inr ⟨hm, by simp⟩
        · exact Or.inl rfl
      · rintro (hcd | ⟨hm, _⟩)
        · exact Or.inr (by injection hcd with h; exact h.symm)
        · exact Or.inl hm
  | close d =>
      rw [applyEvent, mem_setDelete]
      constructor
      · rintro ⟨hm, hne⟩
        exact Or.inr ⟨hm, fun h => hne (by injection h with h'; exact h'.symm)⟩
      · rintro (h | ⟨hm, hne⟩)
        · exact absurd h (by simp)
        · exact ⟨hm, fun hcd => hne (by rw [hcd])⟩

/-- C2: after any sequence of connect/close events, the registry contains
exactly the connections for which a connect event has fired and no close
event for that connection has fired since. -/
theorem c2_registry_membership (evs : List RegEvent) (c : ConnId) :
    c ∈ runEvents evs ↔ connectedNotClosed evs c := by
  induction evs using List.reverseRecOn with
  | nil =>
      simp only [runEvents, List.foldl_nil, List.not_mem_nil, false_iff]
      rintro ⟨l, r, hsplit, _⟩
      exact List.not_mem_nil (RegEvent.connect c) (hsplit ▸ List.mem_append_right l (List.mem_cons_self _ _))
  | append_singleton evs e ih =>
      rw [runEvents_append_one, connectedNotClosed_append_one, mem_applyEvent, ih]

theorem c1_broadcast_exactly_once_witness :
    ([10, 11, 12] : List ConnId).Nodup ∧
    (onMessage [10, 11, 12] 10 (fun _ => ReadyState.opened) "hello").count (11, "hello") = 1 ∧
    (onMessage [10, 11, 12] 10 (fun _ => ReadyState.opened) "hello").count (12, "hello") = 1 ∧
    (onMessage [10, 11, 12] 10 (fun _ => ReadyState.opened) "hello").count (10, "hello") = 0 :=
  ⟨by decide,
   c1_broadcast_exactly_once [10, 11, 12] 10 11 12 (fun _ => ReadyState.opened) "hello"
     (by decide) (by decide) (by decide) (by decide) (by decide) rfl rfl rfl⟩

/-- Counting a surviving pair in the failure-filtered delivery list reduces
to counting the recipient, provided that recipient's send succeeds. -/
theorem count_filterMap_pair (l : List ConnId) (sendFails : ConnId → Bool)
    (r : ConnId) (p : String) (hok : sendFails r = false) :
    (l.filterMap (fun c => if sendFails c then none else some (c, p))).count (r, p) =
      l.count r := by
  induction l with
  | nil => rfl
  | cons a t ih =>
      by_cases hfa : sendFails a = true
      · have har : r ≠ a := fun h => by rw [h, hfa] at hok; cases hok
        simp [List.filterMap_cons, hfa, ih, List.count_cons, har]
      · have hfa' : sendFails a = false := eq_false_of_ne_true hfa
        by_cases har : r = a
        · subst har
          simp [List.filterMap_cons, hfa', ih, List.count_cons]
        · simp [List.filterMap_cons, hfa', ih, List.count_cons, har, Prod.ext_iff]

/-- C3 counterexample: with clients 0, 1, 2 all open, sender 0, and the send
to client 1 failing, the handler's log output is exactly the `Received:` line
and coincides with the log output of the failure-free run — the failure is
neither caught nor logged anywhere in the handler. -/
theorem c3_counterexample_no_failure_log :
    (messageHandler [0, 1, 2] 0 (fun _ => ReadyState.opened)
        (fun c => decide (c = 1)) "hello").logs = ["Received: hello"] ∧
    (messageHandler [0, 1, 2] 0 (fun _ => ReadyState.opened)
        (fun c => decide (c = 1)) "hello").logs =
      (messageHandler [0, 1, 2] 0 (fun _ => ReadyState.opened)
        (fun _ => false) "hello").logs ∧
    (messageHandler [0, 1, 2] 0 (fun _ => ReadyState.opened)
        (fun c => decide (c = 1)) "hello").deliveries = [(2, "hello")] :=
  ⟨rfl, rfl, rfl⟩

/-- C3 (amended): a send failure on one recipient is never escalated — the
handler always runs to completion with the same log output and the same list
of send attempts regardless of which sends fail — and it does not prevent
delivery to the remaining recipients: any other open recipient whose own send
succeeds still receives the payload exactly once.  The failure itself,
however, is not caught or logged by the relay. -/
theorem c3_failure_isolated (clients : List ConnId) (sender : ConnId)
    (state : ConnId → ReadyState) (sendFails : ConnId → Bool)
    (payload : String) (r : ConnId)
    (hnd : clients.Nodup) (hr : r ∈ clients) (hrs : r ≠ sender)
    (hopen : state r = ReadyState.opened) (hok : sendFails r = false) :
    (messageHandler clients sender state sendFails payload).logs =
      ["Received: " ++ payload] ∧
    (messageHandler clients sender state sendFails payload).attempts =
      onMessage clients sender state payload ∧
    (messageHandler clients sender state sendFails payload).deliveries.count
      (r, payload) = 1 := by
  refine ⟨rfl, rfl, ?_⟩
  show ((broadcastRecipients clients sender state).filterMap
      (fun c => if sendFails c then none else some (c, payload))).count (r, payload) = 1
  rw [count_filterMap_pair _ _ _ _ hok]
  exact List.count_eq_one_of_mem (broadcastRecipients_nodup hnd sender state)
    ((mem_broadcastRecipients clients sender state r).2 ⟨hr, hrs, hopen⟩)

theorem c3_failure_isolated_witness :
    ([0, 1, 2] : List ConnId).Nodup ∧
    (messageHandler [0, 1, 2] 0 (fun _ => ReadyState.opened)
        (fun c => decide (c = 1)) "hello").deliveries.count (2, "hello") = 1 :=
  ⟨by decide,
   (c3_failure_isolated [0, 1, 2] 0 (fun _ => ReadyState.opened)
      (fun c => decide (c = 1)) "hello" 2
      (by decide) (by decide) (by decide) rfl (by decide)).2.2⟩

/-- C4: a registry member whose state is not open is silently skipped by the
broadcast: it is sent nothing at all, while any open member distinct from
the sender still receives the payload exactly once, and the handler
completes normally (it is a total function on every such input). -/
theorem c4_non_open_skipped (clients : List ConnId) (A B C : ConnId)
    (state : ConnId → ReadyState) (payload : String)
    (hnd : clients.Nodup) (hB : B ∈ clients) (hC : C ∈ clients)
    (hCA : C ≠ A) (hBnotOpen : state B ≠ ReadyState.opened)
    (hCopen : state C = ReadyState.opened) :
    (∀ p' : String, (B, p') ∉ onMessage clients A state payload) ∧
    (onMessage clients A state payload).count (B, payload) = 0 ∧
    (onMessage clients A state payload).count (C, payload) = 1 := by
  have hBnot : ∀ p' : String, (B, p') ∉ onMessage clients A state payload := by
    intro p' hmem
    rcases List.mem_map.1 hmem with ⟨c, hc, hpair⟩
    have hcB : c = B := congrArg Prod.fst hpair
    subst hcB
    exact hBnotOpen ((mem_broadcastRecipients clients A state c).1 hc).2.2
  refine ⟨hBnot, List.count_eq_zero.2 (hBnot payload), ?_⟩
  rw [onMessage, count_map_pair]
  exact List.count_eq_one_of_mem (broadcastRecipients_nodup hnd A state)
    ((mem_broadcastRecipients clients A state C).2 ⟨hC, hCA, hCopen⟩)

theorem c4_non_open_skipped_witness :
    ([0, 1, 2] : List ConnId).Nodup ∧
    (onMessage [0, 1, 2] 0
        (fun c => if c = 1 then ReadyState.closed else ReadyState.opened)
        "hello").count (1, "hello") = 0 ∧
    (onMessage [0, 1, 2] 0
        (fun c => if c = 1 then ReadyState.closed else ReadyState.opened)
        "hello").count (2, "hello") = 1 :=
  ⟨by decide,
   (c4_non_open_skipped [0, 1, 2] 0 1 2
      (fun c => if c = 1 then ReadyState.closed else ReadyState.opened) "hello"
      (by decide) (by decide) (by decide) (by decide) (by decide) (by decide)).2⟩

theorem inbox_aux (clients : List ConnId) (state : ConnId → ReadyState)
    (r : ConnId) (msgs : List (ConnId × String)) (init : List String) :
    msgs.foldl (fun acc m => acc ++ deliveredTo clients state r m.1 m.2) init =
      init ++ inbox clients state msgs r := by
  induction msgs generalizing init with
  | nil => simp [inbox]
  | cons m t ih =>
      rw [inbox, List.foldl_cons, List.foldl_cons, ih, List.nil_append, ih,
        List.append_assoc]

theorem inbox_append (clients : List ConnId) (state : ConnId → ReadyState)
    (r : ConnId) (xs ys : List (ConnId × String)) :
    inbox clients state (xs ++ ys) r =
      inbox clients state xs r ++ inbox clients state ys r := by
  rw [inbox, List.foldl_append, inbox_aux]
  rfl

theorem inbox_singleton (clients : List ConnId) (state : ConnId → ReadyState)
    (r : ConnId) (m : ConnId × String) :
    inbox clients state [m] r = deliveredTo clients state r m.1 m.2 := by
  simp [inbox]

theorem filterMap_eq_nil_of_not_mem {l : List ConnId} {r : ConnId} (p : String)
    (h : r ∉ l) :
    l.filterMap (fun c => if c = r then some p else none) = [] := by
  induction l with
  | nil => rfl
  | cons a t ih =>
      have ha : a ≠ r := fun hh => h (hh ▸ List.mem_cons_self a t)
      simp [List.filterMap_cons, ha,
        ih (fun hm => h (List.mem_cons_of_mem a hm))]

theorem filterMap_single {l : List ConnId} {r : ConnId} (p : String)
    (hnd : l.Nodup) (hr : r ∈ l) :
    l.filterMap (fun c => if c = r then some p else none) = [p] := by
  induction l with
  | nil => cases hr
  | cons a t ih =>
      rcases List.mem_cons.1 hr with rfl | hrt
      · simp [List.filterMap_cons,
          filterMap_eq_nil_of_not_mem p (List.nodup_cons.1 hnd).1]
      · have ha : a ≠ r := fun h => (List.nodup_cons.1 hnd).1 (h ▸ hrt)
        simp [List.filterMap_cons, ha, ih (List.nodup_cons.1 hnd).2 hrt]

theorem deliveredTo_eq_single (clients : List ConnId)
    (state : ConnId → ReadyState) (r s : ConnId) (p : String)
    (hnd : clients.Nodup) (hr : r ∈ clients) (hrs : r ≠ s)
    (hopen : state r = ReadyState.opened) :
    deliveredTo clients state r s p = [p] := by
  rw [deliveredTo, onMessage, List.filterMap_map]
  have hcomp : ((fun d : ConnId × String => if d.1 = r then some d.2 else none) ∘
      fun c => (c, p)) = fun c => if c = r then some p else none := rfl
  rw [hcomp]
  exact filterMap_single p (broadcastRecipients_nodup hnd s state)
    ((mem_broadcastRecipients clients s state r).2 ⟨hr, hrs, hopen⟩)

/-- C5: if the relay receives `m1` from sender `A` and later `m2` from the
same sender, then any open recipient distinct from `A` has `m1` before `m2`
in its inbox — per-sender FIFO, because each message is broadcast to
completion in arrival order by the single-threaded handler. -/
theorem c5_per_sender_fifo (clients : List ConnId) (state : ConnId → ReadyState)
    (A r : ConnId) (m1 m2 : String) (l1 l2 l3 : List (ConnId × String))
    (hnd : clients.Nodup) (hr : r ∈ clients) (hrA : r ≠ A)
    (hopen : state r = ReadyState.opened) :
    ∃ u v w, inbox clients state (l1 ++ (A, m1) :: l2 ++ (A, m2) :: l3) r =
      u ++ m1 :: (v ++ m2 :: w) := by
  refine ⟨inbox clients state l1 r, inbox clients state l2 r,
    inbox clients state l3 r, ?_⟩
  have h1 : l1 ++ (A, m1) :: l2 ++ (A, m2) :: l3 =
      l1 ++ [(A, m1)] ++ l2 ++ [(A, m2)] ++ l3 := by simp
  rw [h1]
  simp only [inbox_append, inbox_singleton]
  rw [deliveredTo_eq_single clients state r A m1 hnd hr hrA hopen,
    deliveredTo_eq_single clients state r A m2 hnd hr hrA hopen]
  simp

theorem c5_per_sender_fifo_witness :
    ([0, 1, 2] : List ConnId).Nodup ∧
    ∃ u v w,
      inbox [0, 1, 2] (fun _ => ReadyState.opened) [(0, "m1"), (0, "m2")] 1 =
        u ++ "m1" :: (v ++ "m2" :: w) :=
  ⟨by decide,
   c5_per_sender_fifo [0, 1, 2] (fun _ => ReadyState.opened) 0 1 "m1" "m2"
     [] [] [] (by decide) (by decide) (by decide) rfl⟩

theorem runEvents_nodup (evs : List RegEvent) : (runEvents evs).Nodup := by
  induction evs using List.reverseRecOn with
  | nil => simp [runEvents]
  | append_singleton evs e ih =>
      rw [runEvents_append_one]
      cases e with
      | connect c => exact setAdd_nodup ih c
      | close c => exact setDelete_nodup ih c

/-- C6: adding a connection that is already a member leaves the registry
unchanged (JS `Set.add` semantics), adding preserves freedom from
duplicates, and consequently the registry reached by any event history
never holds two entries for the same connection identity. -/
theorem c6_add_idempotent (s : List ConnId) (c : ConnId) (evs : List RegEvent) :
    (c ∈ s → setAdd s c = s) ∧ (s.Nodup → (setAdd s c).Nodup) ∧
      (runEvents evs).Nodup :=
  ⟨fun h => by simp [setAdd, h], fun h => setAdd_nodup h c, runEvents_nodup evs⟩

theorem c6_add_idempotent_witness :
    (1 : ConnId) ∈ [1, 2] ∧ ([1, 2] : List ConnId).Nodup ∧
    setAdd [1, 2] 1 = [1, 2] ∧ (setAdd [1, 2] 1).Nodup ∧
    (runEvents [RegEvent.connect 1, RegEvent.connect 1,
      RegEvent.connect 2]).Nodup :=
  ⟨by decide, by decide,
   (c6_add_idempotent [1, 2] 1 []).1 (by decide),
   (c6_add_idempotent [1, 2] 1 []).2.1 (by decide),
   (c6_add_idempotent [1, 2] 1
     [RegEvent.connect 1, RegEvent.connect 1, RegEvent.connect 2]).2.2⟩

theorem trimChars_eq_nil_iff (l : List Char) :
    trimChars l = [] ↔ l.all jsWs = true := by
  unfold trimChars
  constructor
  · intro h
    have h2 : (l.dropWhile jsWs).reverse.dropWhile jsWs = [] := by
      have := congrArg List.reverse h
      simpa using this
    have h3 : ∀ x ∈ l.dropWhile jsWs, jsWs x := fun x hx =>
      List.dropWhile_eq_nil_iff.1 h2 x (List.mem_reverse.2 hx)
    rw [List.all_eq_true]
    intro x hx
    rw [← List.takeWhile_append_dropWhile jsWs (l := l)] at hx
    rcases List.mem_append.1 hx with hm | hm
    · exact List.mem_takeWhile_imp hm
    · exact h3 x hm
  · intro h
    have h2 : l.dropWhile jsWs = [] :=
      List.dropWhile_eq_nil_iff.2 (fun x hx => List.all_eq_true.1 h x hx)
    simp [h2]

/-- C7: the client's line callback discards a line made only of whitespace
(nothing is sent), and sends any other line prefixed with its user label. -/
theorem c7_blank_lines_discarded (line : String) :
    (line.toList.all jsWs = true → user2OnLine line = none) ∧
    (line.toList.all jsWs = false →
      user2OnLine line = some ("user2: " ++ line)) := by
  constructor
  · intro h
    have ht : trimChars line.toList = [] := (trimChars_eq_nil_iff _).2 h
    have hlen : (jsTrim line).length = 0 := by
      rw [jsTrim]
      show (trimChars line.toList).length = 0
      rw [ht]
      rfl
    rw [user2OnLine, if_pos hlen]
  · intro h
    have ht : trimChars line.toList ≠ [] := fun hc =>
      by rw [(trimChars_eq_nil_iff _).1 hc] at h; cases h
    have hlen : (jsTrim line).length ≠ 0 := by
      rw [jsTrim]
      show (trimChars line.toList).length ≠ 0
      simpa [List.length_eq_zero] using ht
    rw [user2OnLine, if_neg hlen]

theorem c7_blank_lines_discarded_witness :
    ("  \t ".toList.all jsWs = true ∧ user2OnLine "  \t " = none) ∧
    ("\u00A0".toList.all jsWs = true ∧ user2OnLine "\u00A0" = none) ∧
    (" hi".toList.all jsWs = false ∧
      user2OnLine " hi" = some ("user2: " ++ " hi")) :=
  ⟨⟨by decide, (c7_blank_lines_discarded "  \t ").1 (by decide)⟩,
   ⟨by decide, (c7_blank_lines_discarded "\u00A0").1 (by decide)⟩,
   ⟨by decide, (c7_blank_lines_discarded " hi").2 (by decide)⟩⟩

theorem dc_isDigit (n : Nat) : (dc n).isDigit = true := by
  have h : n % 10 < 10 := Nat.mod_lt _ (by omega)
  unfold dc
  set m := n % 10 with hm
  interval_cases m <;> rfl

/-- C8: each interval tick of the SSE server (period 5000 ms) emits a chunk
consisting of a `data: ` line holding a JSON mapping with a `msg` field and
a `time` field whose value is the ISO-8601 timestamp of the tick, and the
chunk is terminated by the blank-line delimiter `\n\n`. -/
theorem c8_sse_tick_format (now : JsDate)
    (hyear : now.year ≤ 9999) (hmonth : now.month ≤ 12) (hday : now.day ≤ 31)
    (hhour : now.hour ≤ 23) (hminute : now.minute ≤ 59)
    (hsecond : now.second ≤ 59) (hms : now.ms ≤ 999) :
    sseIntervalMs = 5000 ∧
    jsonLookup (sseTickJson now) "msg" =
      some (Json.str "Hello from fetch SSE") ∧
    jsonLookup (sseTickJson now) "time" =
      some (Json.str (toISOString now)) ∧
    isIso8601 (toISOString now) = true ∧
    ∃ body, sseTickChunk now = body ++ "\n\n" := by
  refine ⟨rfl, rfl, rfl, ?_, ⟨"data: " ++ jsonStringify (sseTickJson now), rfl⟩⟩
  simp [isIso8601, toISOString, chAt, dc_isDigit]

theorem c8_sse_tick_format_witness :
    (⟨2025, 12, 23, 15, 22, 29, 986⟩ : JsDate).year ≤ 9999 ∧
    isIso8601 (toISOString ⟨2025, 12, 23, 15, 22, 29, 986⟩) = true ∧
    jsonLookup (sseTickJson ⟨2025, 12, 23, 15, 22, 29, 986⟩) "time" =
      some (Json.str "2025-12-23T15:22:29.986Z") :=
  ⟨by decide,
   (c8_sse_tick_format ⟨2025, 12, 23, 15, 22, 29, 986⟩ (by decide) (by decide)
     (by decide) (by decide) (by decide) (by decide) (by decide)).2.2.2.1,
   (c8_sse_tick_format ⟨2025, 12, 23, 15, 22, 29, 986⟩ (by decide) (by decide)
     (by decide) (by decide) (by decide) (by decide) (by decide)).2.2.1⟩

theorem sseRun_intervals_length (evs : List SSEEvent) (s : SSEServerState) :
    (evs.foldl sseStep s).intervals.length =
      s.intervals.length +
        (evs.filter (fun e => decide (e = SSEEvent.request))).length := by
  induction evs generalizing s with
  | nil => simp
  | cons e t ih =>
      rw [List.foldl_cons, ih]
      cases e with
      | request => simp [sseStep]; omega
      | disconnect => simp [sseStep]

/-- C9: every `/events` request starts one more interval timer; no event —
in particular no client disconnect — ever removes one, so after any event
history the server runs exactly as many (5000 ms) intervals as requests it
has received. -/
theorem c9_intervals_never_cleared (evs : List SSEEvent) :
    (sseRun evs).intervals.length =
      (evs.filter (fun e => decide (e = SSEEvent.request))).length ∧
    (∀ s : SSEServerState, sseStep s SSEEvent.disconnect = s) ∧
    (∀ s : SSEServerState, (sseStep s SSEEvent.request).intervals =
      s.intervals ++ [sseIntervalMs]) := by
  refine ⟨?_, fun s => rfl, fun s => rfl⟩
  rw [sseRun, sseRun_intervals_length]
  simp

/-- C10: the streaming client's chunk handler parses a chunk holding exactly
one well-formed event, but `JSON.parse` throws (`some none`) on a chunk
with two coalesced events, on a partial event split across chunks, and on a
continuation chunk in which `data: ` occurs inside the payload text. -/
theorem c10_chunk_parsing_fragile :
    processChunk "data: \x7b\"msg\":\"hi\"\x7d\n\n" =
      some (some (Json.obj [("msg", Json.str "hi")])) ∧
    processChunk
        "data: \x7b\"msg\":\"a\"\x7d\n\ndata: \x7b\"msg\":\"b\"\x7d\n\n" =
      some none ∧
    processChunk "data: \x7b\"msg\":\"Hel" = some none ∧
    processChunk "data: y\"\x7d\n\n" = some none :=
  ⟨rfl, rfl, rfl, rfl⟩
